import Mathlib

/-!
Verification of the inventory-management core (`lib/data.js`).

The JavaScript data layer is shallowly embedded here.  JS numbers that the
code obtains through `Number(...)` coercions are modelled as rationals
(`Rat`); an input whose `Number(...)` coercion is not a finite number is
modelled as `none` in an `Option Rat`.  The persisted JSON collections are
modelled as Lean lists in the same order as the JS arrays.  In-place object
mutation becomes replacement of the corresponding list element.
-/

namespace Inventory

/-- A catalog product record (`products.json`). -/
structure Product where
  id : Rat
  sku : String
  name : String
  category : String
  reorderPoint : Rat
  unitCost : Rat
  deriving DecidableEq, Repr

/-- A warehouse record (`warehouses.json`). -/
structure Warehouse where
  id : Rat
  name : String
  deriving DecidableEq, Repr

/-- A stock line (`stock.json`): quantity of one product at one warehouse. -/
structure StockLine where
  id : Rat
  productId : Rat
  warehouseId : Rat
  quantity : Rat
  deriving DecidableEq, Repr

/-- A transfer history record (`transfers.json`). -/
structure Transfer where
  id : String
  productId : Rat
  fromWarehouseId : Rat
  toWarehouseId : Rat
  quantity : Rat
  createdAt : String
  status : String
  deriving DecidableEq, Repr

/-- An alert record (`alerts.json`).  `comment` is optional in the JS data. -/
structure Alert where
  id : String
  productId : Rat
  sku : String
  productName : String
  reorderPoint : Rat
  totalStock : Rat
  category : String
  recommendedQty : Rat
  note : String
  workflowStatus : String
  createdAt : String
  updatedAt : String
  comment : Option String := none
  deriving DecidableEq, Repr

/-- Source `getTotalStockForProduct`: total stock for a product across all
warehouses (`stock.filter(...).reduce((sum, s) => sum + quantity, 0)`). -/
def getTotalStockForProduct (stock : List StockLine) (productId : Rat) : Rat :=
  (stock.filter (fun s => decide (s.productId = productId))).foldl
    (fun sum s => sum + s.quantity) 0

/-- Source `categorizeStock`: categorize inventory relative to reorder point. -/
def categorizeStock (total reorderPoint : Rat) : String :=
  let rp := reorderPoint
  if rp ≤ 0 then "adequate"
  else if total < (1/2 : Rat) * rp then "critical"
  else if total < rp then "low"
  else if total < 2 * rp then "adequate"
  else "overstocked"

/-- Source `recommendReorder`: recommended reorder quantity based on category. -/
def recommendReorder (total reorderPoint : Rat) : Rat × String :=
  let rp := reorderPoint
  if rp ≤ 0 then (0, "No reorder point set")
  else
    let category := categorizeStock total rp
    if category = "critical" then
      let target : Int := Rat.ceil ((3/2 : Rat) * rp)
      (max 0 ((target : Rat) - total),
        "Raise to ~1.5× RP (" ++ toString target ++ ")")
    else if category = "low" then
      let target := rp
      (max 0 (target - total), "Raise to RP (" ++ toString target ++ ")")
    else (0, "Adequate or overstocked — no action")

/-- The predicate `s => Number(s.productId) === pid && Number(s.warehouseId) === wid`
used by `performStockTransfer` to locate source and destination lines. -/
def lineFor (pid wid : Rat) (s : StockLine) : Bool :=
  decide (s.productId = pid) && decide (s.warehouseId = wid)

/-- In-place mutation of the first stock line matched by `p`
(`found.quantity = q` in JS): replace the quantity of the first match. -/
def setQtyFirst (l : List StockLine) (p : StockLine → Bool) (q : Rat) :
    List StockLine :=
  match l with
  | [] => []
  | x :: xs => if p x then { x with quantity := q } :: xs else x :: setQtyFirst xs p q

/-- `String.padStart(4, '0')` from the transfer-id construction. -/
def padStart4 (s : String) : String :=
  if s.length < 4 then String.mk (List.replicate (4 - s.length) '0') ++ s else s

/-- A transfer request as received by `performStockTransfer`.  Each field is
the result of the `Number(...)` coercion in the source; `none` models a value
that is not a finite number (so that `Number.isFinite` fails on it). -/
structure TransferRequest where
  productId : Option Rat
  fromWarehouseId : Option Rat
  toWarehouseId : Option Rat
  quantity : Option Rat
  deriving DecidableEq, Repr

/-- Source `performStockTransfer`: validate and perform a stock transfer.
Mirrors the source line by line: the finiteness checks, the
same-warehouse check, the positivity check, catalog lookups, the
availability check (which reads 0 for a missing source line), the dead
missing-source-line check, then mutation of the source line, mutation or
creation of the destination line, and construction of the transfer record.
`nowDate` models `toISOString().slice(0,10)` with dashes removed, `nowIso`
the full ISO timestamp, `nowMs` `Date.now()` (used as the new line id).
On success returns the updated stock, the updated transfer log
(new record prepended) and the record itself; `.error` models a thrown
`Error`, every one of which occurs before any `save` call in the source. -/
def performStockTransfer (products : List Product) (warehouses : List Warehouse)
    (stock : List StockLine) (transfers : List Transfer) (req : TransferRequest)
    (nowDate nowIso : String) (nowMs : Rat) :
    Except String (List StockLine × List Transfer × Transfer) :=
  match req.productId with
  | none => .error "Invalid productId"
  | some pid =>
    match req.fromWarehouseId, req.toWarehouseId with
    | some fromId, some toId =>
      if fromId = toId then .error "Source and destination warehouses must differ"
      else
        match req.quantity with
        | none => .error "Quantity must be a positive number"
        | some qty =>
          if qty ≤ 0 then .error "Quantity must be a positive number"
          else if (products.find? (fun p => decide (p.id = pid))).isNone then
            .error "Product not found"
          else if (warehouses.find? (fun w => decide (w.id = fromId))).isNone then
            .error "Source warehouse not found"
          else if (warehouses.find? (fun w => decide (w.id = toId))).isNone then
            .error "Destination warehouse not found"
          else
            let source? := stock.find? (lineFor pid fromId)
            let sourceQty := match source? with
              | some s => s.quantity
              | none => 0
            if sourceQty < qty then .error "Insufficient stock in source warehouse"
            else
              match source? with
              | none => .error "Source stock record not found"
              | some _ =>
                let stock1 := setQtyFirst stock (lineFor pid fromId) (sourceQty - qty)
                let dest? := stock.find? (lineFor pid toId)
                let stock2 := match dest? with
                  | some d => setQtyFirst stock1 (lineFor pid toId) (d.quantity + qty)
                  | none => stock1 ++
                      [{ id := nowMs, productId := pid, warehouseId := toId,
                         quantity := qty }]
                let seq := padStart4 (Nat.repr (transfers.length + 1))
                let t : Transfer :=
                  { id := "T-" ++ nowDate ++ "-" ++ seq
                    productId := pid
                    fromWarehouseId := fromId
                    toWarehouseId := toId
                    quantity := qty
                    createdAt := nowIso
                    status := "COMPLETED" }
                .ok (stock2, t :: transfers, t)
    | _, _ => .error "Invalid warehouseId"

/-- The persisted collections relevant to a transfer. -/
structure DB where
  products : List Product
  warehouses : List Warehouse
  stock : List StockLine
  transfers : List Transfer
  deriving DecidableEq, Repr

/-- The `pages/api/transfers/create.js` view of a transfer: the persisted
collections after the call.  In the source every `throw` in
`performStockTransfer` happens before the first `save` call, so on error the
persisted stock and transfer log are exactly as loaded. -/
def submitTransfer (db : DB) (req : TransferRequest)
    (nowDate nowIso : String) (nowMs : Rat) : DB × Except String Transfer :=
  match performStockTransfer db.products db.warehouses db.stock db.transfers
      req nowDate nowIso nowMs with
  | .ok (stock', transfers', t) =>
    ({ db with stock := stock', transfers := transfers' }, .ok t)
  | .error e => (db, .error e)

/-- The in-place refresh performed by `generateAlerts` on an existing
unresolved alert of a breached product: overwrite totalStock, category,
recommendedQty, note and updatedAt. -/
def refreshAlert (stock : List StockLine) (now : String) (p : Product)
    (a : Alert) : Alert :=
  { a with
    totalStock := getTotalStockForProduct stock p.id
    category := categorizeStock (getTotalStockForProduct stock p.id)
      p.reorderPoint
    recommendedQty := (recommendReorder (getTotalStockForProduct stock p.id)
      p.reorderPoint).1
    note := (recommendReorder (getTotalStockForProduct stock p.id)
      p.reorderPoint).2
    updatedAt := now }

/-- The alert object created by `generateAlerts` for a breached product with
no existing alert (`workflowStatus` NEW, id built from the timestamp). -/
def newAlert (stock : List StockLine) (now : String) (p : Product) : Alert :=
  { id := "A-" ++ now ++ "-" ++ toString p.id
    productId := p.id
    sku := p.sku
    productName := p.name
    reorderPoint := p.reorderPoint
    totalStock := getTotalStockForProduct stock p.id
    category := categorizeStock (getTotalStockForProduct stock p.id)
      p.reorderPoint
    recommendedQty := (recommendReorder (getTotalStockForProduct stock p.id)
      p.reorderPoint).1
    note := (recommendReorder (getTotalStockForProduct stock p.id)
      p.reorderPoint).2
    workflowStatus := "NEW"
    createdAt := now
    updatedAt := now
    comment := none }

/-- The auto-resolution performed by `generateAlerts` on an existing
unresolved alert of a product that is adequate or overstocked. -/
def resolveAlert (now : String) (a : Alert) : Alert :=
  { a with
    workflowStatus := "RESOLVED"
    updatedAt := now }

/-- The JS `alertByProduct` map built by `generateAlerts`:
`new Map(existingAlerts.map(a => [Number(a.productId), a]))`, in which a
later array entry overwrites an earlier one with the same key, so each
product id maps to the LAST alert with that id in the (newest-first) array.
The alert list is processed here in reversed (oldest-first) order, under
which `unshift` becomes `++ [a]` and a map value — a JS object reference —
becomes a stable list index: the last match of the newest-first array is the
first match of the oldest-first list. -/
def initAlertMap (arev : List Alert) : Rat → Option Nat :=
  fun pid => arev.findIdx? (fun a => decide (a.productId = pid))

/-- One iteration of the `for (const p of products)` loop in `generateAlerts`,
acting on the oldest-first alert list together with the `alertByProduct` map
(product id to index in that list).  The `| none => (alerts, m)` fallback for
an out-of-range index is unreachable: the map only ever holds indices of
existing elements. -/
def genStep (stock : List StockLine) (now : String)
    (st : List Alert × (Rat → Option Nat)) (p : Product) :
    List Alert × (Rat → Option Nat) :=
  let alerts := st.1
  let m := st.2
  let pid := p.id
  let total := getTotalStockForProduct stock pid
  let category := categorizeStock total p.reorderPoint
  if category = "critical" ∨ category = "low" then
    match m pid with
    | some k =>
      match alerts[k]? with
      | some a =>
        if a.workflowStatus ≠ "RESOLVED" then
          (alerts.set k (refreshAlert stock now p a), m)
        else (alerts, m)
      | none => (alerts, m)
    | none =>
      (alerts ++ [newAlert stock now p],
        fun q => if q = pid then some alerts.length else m q)
  else
    match m pid with
    | some k =>
      match alerts[k]? with
      | some a =>
        if a.workflowStatus ≠ "RESOLVED" then
          (alerts.set k (resolveAlert now a), m)
        else (alerts, m)
      | none => (alerts, m)
    | none => (alerts, m)

/-- Source `generateAlerts`: generate or refresh alerts for all products.
The newest-first JS array is reversed so that `unshift` becomes an append;
the result is reversed back to the JS order.  `now` models the single
`new Date().toISOString()` taken at the start of the pass. -/
def generateAlerts (products : List Product) (stock : List StockLine)
    (existingAlerts : List Alert) (now : String) : List Alert :=
  let arev := existingAlerts.reverse
  let res := products.foldl (genStep stock now) (arev, initAlertMap arev)
  res.1.reverse

/-- JS truthiness of the optional `comment` argument of `updateAlertStatus`
(a missing comment and the empty string are both falsy). -/
def commentTruthy : Option String → Bool
  | none => false
  | some s => !(decide (s = ""))

/-- The valid workflow statuses (`const valid = [...]` in `updateAlertStatus`). -/
def validStatuses : List String := ["NEW", "ACKNOWLEDGED", "ORDERED", "RESOLVED"]

/-- In-place mutation of the first alert matched by `p`: replace it by `a`. -/
def updateFirstAlert (l : List Alert) (p : Alert → Bool) (a : Alert) : List Alert :=
  match l with
  | [] => []
  | x :: xs => if p x then a :: xs else x :: updateFirstAlert xs p a

/-- Source `updateAlertStatus`: update alert workflow status with optional
comment.  The found alert object is mutated in place, modelled by replacing
the first `id` match; `.error` models a thrown `Error` (before any save). -/
def updateAlertStatus (alerts : List Alert) (id workflowStatus : String)
    (comment : Option String) (now : String) :
    Except String (List Alert × Alert) :=
  match alerts.find? (fun a => decide (a.id = id)) with
  | none => .error "Alert not found"
  | some alert =>
    if !(validStatuses.contains workflowStatus) then
      .error "Invalid workflow status"
    else
      let updated : Alert :=
        { alert with
          workflowStatus := workflowStatus
          updatedAt := now
          comment := if commentTruthy comment then comment else alert.comment }
      .ok (updateFirstAlert alerts (fun a => decide (a.id = id)) updated, updated)

/-- The source line availability read by `performStockTransfer`:
`source ? Number(source.quantity) : 0`. -/
def availableQty (stock : List StockLine) (pid fromId : Rat) : Rat :=
  match stock.find? (lineFor pid fromId) with
  | some s => s.quantity
  | none => 0

/-- Non-negativity of every stock line in a ledger. -/
def nonnegStock (stock : List StockLine) : Prop := ∀ s ∈ stock, 0 ≤ s.quantity

/-- States of the stock collection reachable by a sequence of successful
`performStockTransfer` calls (any catalog and transfer log at each step). -/
inductive TransferSeq : List StockLine → List StockLine → Prop
  | refl (stock) : TransferSeq stock stock
  | step (stock stock₁ stock₂ : List StockLine) (products : List Product)
      (warehouses : List Warehouse) (transfers transfers' : List Transfer)
      (t : Transfer) (req : TransferRequest) (nowDate nowIso : String) (nowMs : Rat) :
      TransferSeq stock stock₁ →
      performStockTransfer products warehouses stock₁ transfers req
        nowDate nowIso nowMs = .ok (stock₂, transfers', t) →
      TransferSeq stock stock₂

/-- Alert collections reachable from the empty collection through
`generateAlerts` and successful `updateAlertStatus` calls. -/
inductive AlertsReachable : List Alert → Prop
  | empty : AlertsReachable []
  | reconcile (products : List Product) (stock : List StockLine) (now : String)
      (A : List Alert) : AlertsReachable A →
      AlertsReachable (generateAlerts products stock A now)
  | workflow (A A' : List Alert) (a : Alert) (id ws : String)
      (c : Option String) (now : String) : AlertsReachable A →
      updateAlertStatus A id ws c now = .ok (A', a) → AlertsReachable A'

/-! Concrete fixtures, used by counterexamples and witnesses.  They realize
the spec's §8 scenario: product 1 with reorder point 100 and stock lines
with quantities 30 at warehouse 1 and 10 at warehouse 2. -/

/-- Product 1 with reorder point 100. -/
def exProduct : Product := ⟨1, "SKU-1", "Widget", "general", 100, 5⟩

/-- Warehouse 1. -/
def exW1 : Warehouse := ⟨1, "W1"⟩

/-- Warehouse 2. -/
def exW2 : Warehouse := ⟨2, "W2"⟩

/-- Stock lines: 30 units of product 1 at warehouse 1, 10 at warehouse 2. -/
def exStock : List StockLine := [⟨10, 1, 1, 30⟩, ⟨11, 1, 2, 10⟩]

/-- A transfer request for 20 units of product 1 from warehouse 1 to 2. -/
def exReq : TransferRequest := ⟨some 1, some 1, some 2, some 20⟩

/-- A RESOLVED alert for product 1. -/
def exResolvedAlert : Alert :=
  ⟨"A-t0-1", 1, "SKU-1", "Widget", 100, 40, "critical", 110, "n",
   "RESOLVED", "t0", "t0", none⟩

/-- The reconciliation loop invariant relating the `alertByProduct` map to
the alert list: a product id absent from the map has no alert in the list. -/
def NoneAbsent (s : List Alert × (Rat → Option Nat)) : Prop :=
  ∀ pid, s.2 pid = none → ∀ a ∈ s.1, a.productId ≠ pid

/-- A state of the reconciliation loop is stable for a product when
processing that product again changes nothing. -/
def Stable (stock : List StockLine) (now : String)
    (s : List Alert × (Rat → Option Nat)) (p : Product) : Prop :=
  genStep stock now s p = s

/-- The loop map always agrees with the map that would be rebuilt from the
current list (JS object references modelled as stable indices). -/
def MapEq (s : List Alert × (Rat → Option Nat)) : Prop :=
  s.2 = initAlertMap s.1

/-! ## Theorems -/

/-- C7: `categorizeStock` follows the §4.3 threshold table exactly:
adequate when the reorder point is not positive; critical below half the
reorder point; low from half the reorder point up to it; adequate from the
reorder point up to twice it; overstocked from twice the reorder point on;
and in particular categorize(40,100)=critical, categorize(60,100)=low,
categorize(150,100)=adequate, categorize(250,100)=overstocked. -/
theorem categorizeStock_spec (total rp : Rat) :
    (rp ≤ 0 → categorizeStock total rp = "adequate") ∧
    (0 < rp → total < (1/2 : Rat) * rp → categorizeStock total rp = "critical") ∧
    (0 < rp → (1/2 : Rat) * rp ≤ total → total < rp →
      categorizeStock total rp = "low") ∧
    (0 < rp → rp ≤ total → total < 2 * rp →
      categorizeStock total rp = "adequate") ∧
    (0 < rp → 2 * rp ≤ total → categorizeStock total rp = "overstocked") ∧
    categorizeStock 40 100 = "critical" ∧ categorizeStock 60 100 = "low" ∧
    categorizeStock 150 100 = "adequate" ∧
    categorizeStock 250 100 = "overstocked" := by
  refine ⟨?_, ?_, ?_, ?_, ?_, by norm_num [categorizeStock],
    by norm_num [categorizeStock], by norm_num [categorizeStock],
    by norm_num [categorizeStock]⟩
  · intro h
    simp only [categorizeStock]
    rw [if_pos h]
  · intro h0 h1
    simp only [categorizeStock]
    rw [if_neg (not_le.mpr h0), if_pos h1]
  · intro h0 h1 h2
    simp only [categorizeStock]
    rw [if_neg (not_le.mpr h0), if_neg (not_lt.mpr h1), if_pos h2]
  · intro h0 h1 h2
    have n1 : ¬ total < (1/2 : Rat) * rp := by
      push_neg
      nlinarith
    simp only [categorizeStock]
    rw [if_neg (not_le.mpr h0), if_neg n1, if_neg (not_lt.mpr h1), if_pos h2]
  · intro h0 h1
    have n1 : ¬ total < (1/2 : Rat) * rp := by
      push_neg
      nlinarith
    have n2 : ¬ total < rp := by push_neg; nlinarith
    simp only [categorizeStock]
    rw [if_neg (not_le.mpr h0), if_neg n1, if_neg n2, if_neg (not_lt.mpr h1)]

/-- Witness for C7: the threshold table applied at concrete inputs. -/
theorem categorizeStock_spec_witness :
    categorizeStock 40 100 = "critical" ∧
    categorizeStock 150 100 = "adequate" :=
  ⟨(categorizeStock_spec 40 100).2.1 (by norm_num) (by norm_num),
   (categorizeStock_spec 150 100).2.2.2.1 (by norm_num) (by norm_num) (by norm_num)⟩

/-- C8: `recommendReorder` returns 0 with a no-reorder-point note when the
reorder point is not positive; `max 0 (ceil(1.5 rp) - total)` when critical;
`max 0 (rp - total)` when low; and 0 with a no-action note when adequate or
overstocked; in particular for reorder point 100 and total 40 the target is
150 and the recommended quantity 110. -/
theorem recommendReorder_spec (total rp : Rat) :
    (rp ≤ 0 → recommendReorder total rp = (0, "No reorder point set")) ∧
    (0 < rp → categorizeStock total rp = "critical" →
      recommendReorder total rp =
        (max 0 ((Rat.ceil ((3/2 : Rat) * rp) : Rat) - total),
         "Raise to ~1.5× RP (" ++ toString (Rat.ceil ((3/2 : Rat) * rp)) ++ ")")) ∧
    (0 < rp → categorizeStock total rp = "low" →
      recommendReorder total rp =
        (max 0 (rp - total), "Raise to RP (" ++ toString rp ++ ")")) ∧
    (0 < rp →
      (categorizeStock total rp = "adequate" ∨
        categorizeStock total rp = "overstocked") →
      recommendReorder total rp = (0, "Adequate or overstocked — no action")) ∧
    recommendReorder 40 100 = (110, "Raise to ~1.5× RP (150)") := by
  refine ⟨?_, ?_, ?_, ?_,
    by norm_num [recommendReorder, categorizeStock, Rat.ceil]; decide⟩
  · intro h; simp [recommendReorder, h]
  · intro h0 hc
    simp [recommendReorder, not_le.mpr h0, hc]
  · intro h0 hc
    simp [recommendReorder, not_le.mpr h0, hc]
  · intro h0 hc
    rcases hc with hc | hc <;>
      simp [recommendReorder, not_le.mpr h0, hc]

/-- Witness for C8: the recommendation rules applied at concrete inputs. -/
theorem recommendReorder_spec_witness :
    recommendReorder 40 100 =
      (110, "Raise to ~1.5× RP (150)") ∧
    recommendReorder 60 100 = (40, "Raise to RP (100)") := by
  constructor
  · exact (recommendReorder_spec 40 100).2.2.2.2
  · have h := (recommendReorder_spec 60 100).2.2.1 (by norm_num)
      (by norm_num [categorizeStock])
    rw [h]
    norm_num
    decide

/-- C4 counterexample: product 1 and warehouses 1 and 2 exist, the request
(product 1, from warehouse 1 to 2, quantity 20) passes checks 1–5, and no
stock line exists for (product 1, warehouse 1); the call fails with the
insufficient-stock (conflict) error, not with the missing-source-record
(integrity) error that §4.2's check order would give. -/
theorem transfer_missing_source_counterexample :
    performStockTransfer [exProduct] [exW1, exW2] [⟨11, 1, 2, 10⟩] [] exReq
        "d" "t" 0 =
      .error "Insufficient stock in source warehouse" ∧
    performStockTransfer [exProduct] [exW1, exW2] [⟨11, 1, 2, 10⟩] [] exReq
        "d" "t" 0 ≠
      .error "Source stock record not found" := by
  constructor
  · norm_num [performStockTransfer, exProduct, exW1, exW2, exReq, lineFor,
      availableQty]
  · norm_num [performStockTransfer, exProduct, exW1, exW2, exReq, lineFor,
      availableQty]
    decide

/-- C4 (amended): checks 1–5 run in §4.2's order with their distinct
errors, but the availability check runs before the missing-source-line
check, so every request that passes checks 1–5 and has no stock line for
(productId, fromWarehouseId) fails with the insufficient-stock conflict
error; the integrity error is unreachable, since a positive quantity always
exceeds the zero availability of a missing line. -/
theorem transfer_missing_source_conflict (products : List Product)
    (warehouses : List Warehouse) (stock : List StockLine)
    (transfers : List Transfer) (pid fromId toId qty : Rat)
    (nowDate nowIso : String) (nowMs : Rat)
    (hne : fromId ≠ toId) (hq : 0 < qty)
    (hp : (products.find? (fun p => decide (p.id = pid))).isNone = false)
    (hf : (warehouses.find? (fun w => decide (w.id = fromId))).isNone = false)
    (ht : (warehouses.find? (fun w => decide (w.id = toId))).isNone = false)
    (hs : stock.find? (lineFor pid fromId) = none) :
    performStockTransfer products warehouses stock transfers
        ⟨some pid, some fromId, some toId, some qty⟩ nowDate nowIso nowMs =
      .error "Insufficient stock in source warehouse" := by
  simp only [performStockTransfer, hp, hf, ht, hs]
  rw [if_neg hne, if_neg (not_le.mpr hq)]
  simp [hq]

/-- Witness for the amended C4 theorem at the counterexample input. -/
theorem transfer_missing_source_conflict_witness :
    performStockTransfer [exProduct] [exW1, exW2] [⟨11, 1, 2, 10⟩] []
        ⟨some 1, some 1, some 2, some 20⟩ "d" "t" 0 =
      .error "Insufficient stock in source warehouse" :=
  transfer_missing_source_conflict [exProduct] [exW1, exW2] [⟨11, 1, 2, 10⟩]
    [] 1 1 2 20 "d" "t" 0 (by norm_num) (by norm_num)
    (by norm_num [exProduct]) (by norm_num [exW1, exW2])
    (by norm_num [exW1, exW2]) (by norm_num [lineFor])

/-- C3: a transfer request with non-positive quantity, or equal source and
destination warehouses, or quantity exceeding the available source quantity,
fails with an error, and the persisted stock collection and transfer log are
unchanged — no partial application occurs (in the source every throw
happens before the first save). -/
theorem invalid_transfer_rejected (db : DB) (req : TransferRequest)
    (pid fromId toId qty : Rat) (nowDate nowIso : String) (nowMs : Rat)
    (hreq : req = ⟨some pid, some fromId, some toId, some qty⟩)
    (hbad : qty ≤ 0 ∨ fromId = toId ∨ availableQty db.stock pid fromId < qty) :
    (∃ e, performStockTransfer db.products db.warehouses db.stock db.transfers
        req nowDate nowIso nowMs = .error e) ∧
    (submitTransfer db req nowDate nowIso nowMs).1 = db := by
  subst hreq
  have herr : ∃ e, performStockTransfer db.products db.warehouses db.stock
      db.transfers ⟨some pid, some fromId, some toId, some qty⟩
      nowDate nowIso nowMs = .error e := by
    by_cases h1 : fromId = toId
    · exact ⟨"Source and destination warehouses must differ",
        by simp [performStockTransfer, h1]⟩
    · by_cases h2 : qty ≤ 0
      · exact ⟨"Quantity must be a positive number",
          by simp [performStockTransfer, h1, h2]⟩
      · rcases hbad with hb | hb | hb
        · exact absurd hb h2
        · exact absurd hb h1
        · by_cases h3 :
            (db.products.find? (fun p => decide (p.id = pid))).isNone
          · exact ⟨"Product not found",
              by simp [performStockTransfer, h1, h2, h3]⟩
          · by_cases h4 :
              (db.warehouses.find? (fun w => decide (w.id = fromId))).isNone
            · exact ⟨"Source warehouse not found",
                by simp [performStockTransfer, h1, h2, h3, h4]⟩
            · by_cases h5 :
                (db.warehouses.find? (fun w => decide (w.id = toId))).isNone
              · exact ⟨"Destination warehouse not found",
                  by simp [performStockTransfer, h1, h2, h3, h4, h5]⟩
              · refine ⟨"Insufficient stock in source warehouse", ?_⟩
                simp only [availableQty] at hb
                simp [performStockTransfer, h1, h2, h3, h4, h5, hb]
  refine ⟨herr, ?_⟩
  obtain ⟨e, he⟩ := herr
  simp [submitTransfer, he]

/-- Witness for C3: a zero-quantity request against the §8 scenario state is
rejected and leaves the collections unchanged. -/
theorem invalid_transfer_rejected_witness :
    (∃ e, performStockTransfer [exProduct] [exW1, exW2] exStock []
        ⟨some 1, some 1, some 2, some 0⟩ "d" "t" 0 = .error e) ∧
    (submitTransfer ⟨[exProduct], [exW1, exW2], exStock, []⟩
        ⟨some 1, some 1, some 2, some 0⟩ "d" "t" 0).1 =
      ⟨[exProduct], [exW1, exW2], exStock, []⟩ :=
  invalid_transfer_rejected ⟨[exProduct], [exW1, exW2], exStock, []⟩
    ⟨some 1, some 1, some 2, some 0⟩ 1 1 2 0 "d" "t" 0 rfl
    (Or.inl (by norm_num))

theorem foldl_qty_shift (l : List StockLine) (c : Rat) :
    l.foldl (fun sum s => sum + s.quantity) c =
      c + l.foldl (fun sum s => sum + s.quantity) 0 := by
  induction l generalizing c with
  | nil => simp
  | cons x xs ih =>
    simp only [List.foldl_cons]
    rw [ih (c + x.quantity), ih (0 + x.quantity)]
    ring

theorem totalFor_cons (x : StockLine) (xs : List StockLine) (pid : Rat) :
    getTotalStockForProduct (x :: xs) pid =
      (if x.productId = pid then x.quantity else 0) +
        getTotalStockForProduct xs pid := by
  by_cases h : x.productId = pid
  · simp only [getTotalStockForProduct, List.filter_cons, decide_eq_true_eq,
      h, if_pos, List.foldl_cons]
    rw [foldl_qty_shift]
    simp [h]
  · simp only [getTotalStockForProduct, List.filter_cons, decide_eq_true_eq,
      h, if_neg, List.foldl_cons]
    simp [h]

theorem totalFor_append (l₁ l₂ : List StockLine) (pid : Rat) :
    getTotalStockForProduct (l₁ ++ l₂) pid =
      getTotalStockForProduct l₁ pid + getTotalStockForProduct l₂ pid := by
  induction l₁ with
  | nil => simp [getTotalStockForProduct]
  | cons x xs ih =>
    rw [List.cons_append, totalFor_cons, totalFor_cons, ih]
    ring

theorem lineFor_fields {pid wid : Rat} {s : StockLine}
    (h : lineFor pid wid s = true) : s.productId = pid ∧ s.warehouseId = wid := by
  simpa [lineFor] using h

theorem totalFor_setQtyFirst (l : List StockLine) (pid wid q : Rat)
    (s0 : StockLine) (h : l.find? (lineFor pid wid) = some s0) :
    getTotalStockForProduct (setQtyFirst l (lineFor pid wid) q) pid =
      getTotalStockForProduct l pid - s0.quantity + q := by
  induction l with
  | nil => simp at h
  | cons x xs ih =>
    by_cases hp : lineFor pid wid x
    · rw [List.find?_cons_of_pos _ hp] at h
      injection h with h
      subst h
      have hx := (lineFor_fields hp).1
      simp only [setQtyFirst, if_pos hp]
      rw [totalFor_cons, totalFor_cons]
      simp only [hx, if_pos]
      ring
    · rw [List.find?_cons_of_neg _ hp] at h
      simp only [setQtyFirst, hp, Bool.false_eq_true, if_false]
      rw [totalFor_cons, totalFor_cons, ih h]
      ring

theorem find?_setQtyFirst_ne (l : List StockLine) (pid wid pid' wid' q : Rat)
    (hw : wid ≠ wid') :
    (setQtyFirst l (lineFor pid wid) q).find? (lineFor pid' wid') =
      l.find? (lineFor pid' wid') := by
  induction l with
  | nil => rfl
  | cons x xs ih =>
    by_cases hp : lineFor pid wid x
    · have hxw : x.warehouseId = wid := (lineFor_fields hp).2
      have hne : lineFor pid' wid' x = false := by
        simp [lineFor, hxw, hw]
      have hne' : lineFor pid' wid' { x with quantity := q } = false := by
        simp [lineFor, hxw, hw]
      simp only [setQtyFirst, if_pos hp]
      rw [List.find?_cons_of_neg _ (by simp [hne']),
        List.find?_cons_of_neg _ (by simp [hne])]
    · simp only [setQtyFirst, hp, Bool.false_eq_true, if_false]
      by_cases hq : lineFor pid' wid' x
      · rw [List.find?_cons_of_pos _ hq, List.find?_cons_of_pos _ hq]
      · rw [List.find?_cons_of_neg _ hq, List.find?_cons_of_neg _ hq, ih]

theorem mem_setQtyFirst {a : StockLine} {l : List StockLine}
    {p : StockLine → Bool} {q : Rat} (h : a ∈ setQtyFirst l p q) :
    a ∈ l ∨ a.quantity = q := by
  induction l with
  | nil => simp [setQtyFirst] at h
  | cons x xs ih =>
    by_cases hp : p x
    · simp only [setQtyFirst, if_pos hp, List.mem_cons] at h
      rcases h with h | h
      · right; rw [h]
      · left; exact List.mem_cons_of_mem _ h
    · simp only [setQtyFirst, hp, Bool.false_eq_true, if_false,
        List.mem_cons] at h
      rcases h with h | h
      · left; simp [h]
      · rcases ih h with h' | h'
        · left; exact List.mem_cons_of_mem _ h'
        · right; exact h'

/-- C1: every transfer accepted by `performStockTransfer` conserves the
total quantity of the transferred product across all warehouses, including
the case where the destination line did not exist and is created. -/
theorem transfer_conserves_total (products : List Product)
    (warehouses : List Warehouse) (stock : List StockLine)
    (transfers : List Transfer) (req : TransferRequest)
    (nowDate nowIso : String) (nowMs : Rat) (stock' : List StockLine)
    (transfers' : List Transfer) (t : Transfer)
    (h : performStockTransfer products warehouses stock transfers req
      nowDate nowIso nowMs = .ok (stock', transfers', t)) :
    getTotalStockForProduct stock' t.productId =
      getTotalStockForProduct stock t.productId := by
  obtain ⟨pidO, fromO, toO, qtyO⟩ := req
  rcases pidO with _ | pid <;> rcases fromO with _ | fromId <;>
    rcases toO with _ | toId <;> rcases qtyO with _ | qty <;>
    simp only [performStockTransfer] at h <;>
    try exact Except.noConfusion h
  all_goals try (split_ifs at h <;> exact Except.noConfusion h)
  rcases hfind : stock.find? (lineFor pid fromId) with _ | s0 <;>
    rw [hfind] at h <;>
    split_ifs at h with h1 h2 h3 h4 h5 h6
  all_goals try (simp at h)
  obtain ⟨hstock, -, ht⟩ := h
  subst ht
  subst hstock
  dsimp only
  rcases hdest : stock.find? (lineFor pid toId) with _ | d <;> dsimp only
  · rw [totalFor_append, totalFor_setQtyFirst stock pid fromId _ s0 hfind,
      totalFor_cons]
    simp [getTotalStockForProduct]
  · have hd1 : (setQtyFirst stock (lineFor pid fromId)
        (s0.quantity - qty)).find? (lineFor pid toId) = some d := by
      rw [find?_setQtyFirst_ne stock pid fromId pid toId _ h1, hdest]
    rw [totalFor_setQtyFirst _ pid toId _ d hd1,
      totalFor_setQtyFirst stock pid fromId _ s0 hfind]
    ring

/-- Witness for C1 at the §8 scenario: 20 units of product 1 move from
warehouse 1 to warehouse 2 and the total for product 1 stays 40. -/
theorem transfer_conserves_total_witness :
    getTotalStockForProduct [⟨10, 1, 1, 10⟩, ⟨11, 1, 2, 30⟩] 1 =
      getTotalStockForProduct exStock 1 :=
  transfer_conserves_total [exProduct] [exW1, exW2] exStock [] exReq "d" "t" 99
    [⟨10, 1, 1, 10⟩, ⟨11, 1, 2, 30⟩]
    [⟨"T-d-0001", 1, 1, 2, 20, "t", "COMPLETED"⟩]
    ⟨"T-d-0001", 1, 1, 2, 20, "t", "COMPLETED"⟩
    (by norm_num [performStockTransfer, exProduct, exW1, exW2, exStock, exReq,
      lineFor, setQtyFirst, padStart4]; decide)

theorem transfer_preserves_nonneg (products : List Product)
    (warehouses : List Warehouse) (stock : List StockLine)
    (transfers : List Transfer) (req : TransferRequest)
    (nowDate nowIso : String) (nowMs : Rat) (stock' : List StockLine)
    (transfers' : List Transfer) (t : Transfer)
    (h : performStockTransfer products warehouses stock transfers req
      nowDate nowIso nowMs = .ok (stock', transfers', t))
    (hn : nonnegStock stock) : nonnegStock stock' := by
  obtain ⟨pidO, fromO, toO, qtyO⟩ := req
  rcases pidO with _ | pid <;> rcases fromO with _ | fromId <;>
    rcases toO with _ | toId <;> rcases qtyO with _ | qty <;>
    simp only [performStockTransfer] at h <;>
    try exact Except.noConfusion h
  all_goals try (split_ifs at h <;> exact Except.noConfusion h)
  rcases hfind : stock.find? (lineFor pid fromId) with _ | s0 <;>
    rw [hfind] at h <;>
    split_ifs at h with h1 h2 h3 h4 h5 h6
  all_goals try (simp at h)
  obtain ⟨hstock, -, -⟩ := h
  subst hstock
  have hq : 0 < qty := not_le.mp h2
  have hs0 : qty ≤ s0.quantity := not_lt.mp (by simpa using h6)
  rcases hdest : stock.find? (lineFor pid toId) with _ | d <;> dsimp only
  · intro a ha
    rcases List.mem_append.mp ha with ha | ha
    · rcases mem_setQtyFirst ha with ha | ha
      · exact hn a ha
      · rw [ha]; linarith
    · rcases List.mem_singleton.mp ha with rfl
      simpa using hq.le
  · have hd : 0 ≤ d.quantity := hn d (List.mem_of_find?_eq_some hdest)
    intro a ha
    rcases mem_setQtyFirst ha with ha | ha
    · rcases mem_setQtyFirst ha with ha | ha
      · exact hn a ha
      · rw [ha]; linarith
    · rw [ha]; linarith

/-- C2: starting from a ledger in which every stock-line quantity is
non-negative, after any sequence of successful `performStockTransfer` calls
no stock-line quantity is ever negative: the source line is decremented only
when its quantity is at least the requested quantity, and the destination
line is only ever incremented or created with a positive quantity. -/
theorem transfer_seq_nonneg (stock stock' : List StockLine)
    (hn : nonnegStock stock) (hseq : TransferSeq stock stock') :
    nonnegStock stock' := by
  induction hseq with
  | refl => exact hn
  | step s1 s2 ps ws tr tr' t req nd ni nm hs hperf ih =>
    exact transfer_preserves_nonneg ps ws s1 tr req nd ni nm s2 tr' t hperf ih

/-- Witness for C2: the §8 scenario ledger is non-negative, and so is the
ledger after the 20-unit transfer from warehouse 1 to warehouse 2. -/
theorem transfer_seq_nonneg_witness :
    nonnegStock [⟨10, 1, 1, 10⟩, ⟨11, 1, 2, 30⟩] :=
  transfer_seq_nonneg exStock [⟨10, 1, 1, 10⟩, ⟨11, 1, 2, 30⟩]
    (by norm_num [nonnegStock, exStock])
    (TransferSeq.step exStock exStock _ [exProduct] [exW1, exW2] []
      [⟨"T-d-0001", 1, 1, 2, 20, "t", "COMPLETED"⟩]
      ⟨"T-d-0001", 1, 1, 2, 20, "t", "COMPLETED"⟩ exReq "d" "t" 99
      (TransferSeq.refl exStock)
      (by norm_num [performStockTransfer, exProduct, exW1, exW2, exStock,
        exReq, lineFor, setQtyFirst, padStart4]; decide))

theorem find?_updateFirst_of_first (l : List Alert) (p : Alert → Bool)
    (b : Alert) (i : Nat) (a : Alert) (ha : l[i]? = some a) (hp : p a = true)
    (hmin : ∀ j, j < i → ∀ x, l[j]? = some x → p x = false) :
    l.find? p = some a ∧ updateFirstAlert l p b = l.set i b := by
  induction l generalizing i with
  | nil => simp at ha
  | cons x xs ih =>
    cases i with
    | zero =>
      simp only [List.getElem?_cons_zero, Option.some.injEq] at ha
      subst ha
      refine ⟨List.find?_cons_of_pos _ hp, ?_⟩
      simp [updateFirstAlert, hp]
    | succ i =>
      have hx : p x = false := hmin 0 (Nat.succ_pos _) x (by simp)
      simp only [List.getElem?_cons_succ] at ha
      have hmin' : ∀ j, j < i → ∀ y, xs[j]? = some y → p y = false := by
        intro j hj y hy
        exact hmin (j + 1) (Nat.succ_lt_succ hj) y (by simpa using hy)
      obtain ⟨hfind, hupd⟩ := ih i ha hmin'
      refine ⟨?_, ?_⟩
      · rw [List.find?_cons_of_neg _ (by simp [hx]), hfind]
      · simp [updateFirstAlert, hx, hupd]

/-- C9: for every existing alert (located at the first position whose id
matches) and every valid workflow status, `updateAlertStatus` succeeds and
modifies only that alert: it overwrites `workflowStatus`, sets `updatedAt`,
sets `comment` only if a truthy comment was supplied (an absent comment
leaves the prior comment untouched), and leaves every other field of the
alert and every other alert in the collection unchanged. -/
theorem updateAlertStatus_spec (alerts : List Alert) (id ws : String)
    (c : Option String) (now : String) (i : Nat) (a : Alert)
    (ha : alerts[i]? = some a) (hid : a.id = id)
    (hfirst : ∀ j, j < i → ∀ b, alerts[j]? = some b → b.id ≠ id)
    (hws : ws ∈ validStatuses) :
    ∃ a', updateAlertStatus alerts id ws c now = .ok (alerts.set i a', a') ∧
      a'.workflowStatus = ws ∧ a'.updatedAt = now ∧
      a'.comment = (if commentTruthy c then c else a.comment) ∧
      a'.id = a.id ∧ a'.productId = a.productId ∧ a'.sku = a.sku ∧
      a'.productName = a.productName ∧ a'.reorderPoint = a.reorderPoint ∧
      a'.totalStock = a.totalStock ∧ a'.category = a.category ∧
      a'.recommendedQty = a.recommendedQty ∧ a'.note = a.note ∧
      a'.createdAt = a.createdAt ∧
      ∀ j, j ≠ i → (alerts.set i a')[j]? = alerts[j]? := by
  have hmin : ∀ j, j < i → ∀ x, alerts[j]? = some x →
      (fun y => decide (y.id = id)) x = false := by
    intro j hj x hx
    simpa using hfirst j hj x hx
  obtain ⟨hfind, hupd⟩ := find?_updateFirst_of_first alerts
    (fun y => decide (y.id = id))
    { a with
      workflowStatus := ws
      updatedAt := now
      comment := if commentTruthy c then c else a.comment }
    i a ha (by simp [hid]) hmin
  refine ⟨{ a with
      workflowStatus := ws
      updatedAt := now
      comment := if commentTruthy c then c else a.comment }, ?_, by simp,
    by simp, by simp, by simp, by simp, by simp, by simp, by simp, by simp,
    by simp, by simp, by simp, by simp, ?_⟩
  · have hcontains : validStatuses.contains ws = true := List.elem_iff.mpr hws
    simp only [updateAlertStatus, hfind, hcontains, Bool.not_true,
      Bool.false_eq_true, if_false, hupd]
  · intro j hj
    exact List.getElem?_set_ne (Ne.symm hj)

/-- Witness for C9: acknowledging the fixture alert with no comment. -/
theorem updateAlertStatus_spec_witness :
    ∃ a', updateAlertStatus [exResolvedAlert] "A-t0-1" "ACKNOWLEDGED" none
        "t3" = .ok ([exResolvedAlert].set 0 a', a') ∧
      a'.workflowStatus = "ACKNOWLEDGED" ∧ a'.updatedAt = "t3" ∧
      a'.comment = (if commentTruthy none then none
        else exResolvedAlert.comment) ∧
      a'.id = exResolvedAlert.id ∧ a'.productId = exResolvedAlert.productId ∧
      a'.sku = exResolvedAlert.sku ∧
      a'.productName = exResolvedAlert.productName ∧
      a'.reorderPoint = exResolvedAlert.reorderPoint ∧
      a'.totalStock = exResolvedAlert.totalStock ∧
      a'.category = exResolvedAlert.category ∧
      a'.recommendedQty = exResolvedAlert.recommendedQty ∧
      a'.note = exResolvedAlert.note ∧
      a'.createdAt = exResolvedAlert.createdAt ∧
      ∀ j, j ≠ 0 → ([exResolvedAlert].set 0 a')[j]? = [exResolvedAlert][j]? :=
  updateAlertStatus_spec [exResolvedAlert] "A-t0-1" "ACKNOWLEDGED" none "t3"
    0 exResolvedAlert rfl rfl (by omega) (by decide)

theorem set_same {α : Type} (l : List α) (k : Nat) (a : α) (h : l[k]? = some a) :
    l.set k a = l := by
  induction l generalizing k with
  | nil => simp at h
  | cons x xs ih =>
    cases k with
    | zero =>
      simp only [List.getElem?_cons_zero, Option.some.injEq] at h
      simp [h]
    | succ k =>
      simp only [List.getElem?_cons_succ] at h
      simp [ih k h]

theorem genStep_shape (stock : List StockLine) (now : String)
    (s : List Alert × (Rat → Option Nat)) (p : Product) :
    genStep stock now s p = s ∨
    (∃ k a b, s.2 p.id = some k ∧ s.1[k]? = some a ∧
      a.workflowStatus ≠ "RESOLVED" ∧
      genStep stock now s p = (s.1.set k b, s.2) ∧
      b.productId = a.productId) ∨
    (∃ alert : Alert, s.2 p.id = none ∧
      genStep stock now s p =
        (s.1 ++ [alert], fun q => if q = p.id then some s.1.length else s.2 q) ∧
      alert.productId = p.id ∧ alert.workflowStatus = "NEW") := by
  obtain ⟨l, m⟩ := s
  simp only [genStep]
  by_cases hc : categorizeStock (getTotalStockForProduct stock p.id)
      p.reorderPoint = "critical" ∨
      categorizeStock (getTotalStockForProduct stock p.id) p.reorderPoint = "low"
  · rw [if_pos hc]
    rcases hm : m p.id with _ | k <;> simp only [hm]
    · right; right
      exact ⟨_, trivial, rfl, rfl, rfl⟩
    · rcases hk : l[k]? with _ | a <;> simp only [hk]
      · first | trivial | (left; trivial) | (left; rfl)
      · by_cases hres : a.workflowStatus = "RESOLVED"
        · left; simp [hres]
        · right; left
          refine ⟨k, a, refreshAlert stock now p a, rfl, hk, hres, ?_, rfl⟩
          rw [if_pos hres]
  · rw [if_neg hc]
    rcases hm : m p.id with _ | k <;> simp only [hm]
    · first | trivial | (left; trivial) | (left; rfl)
    · rcases hk : l[k]? with _ | a <;> simp only [hk]
      · first | trivial | (left; trivial) | (left; rfl)
      · by_cases hres : a.workflowStatus = "RESOLVED"
        · left; simp [hres]
        · right; left
          refine ⟨k, a, resolveAlert now a, rfl, hk, hres, ?_, rfl⟩
          rw [if_pos hres]

theorem initAlertMap_none (arev : List Alert) (pid : Rat) :
    initAlertMap arev pid = none ↔ ∀ a ∈ arev, a.productId ≠ pid := by
  simp [initAlertMap, List.findIdx?_eq_none_iff]

theorem initAlertMap_noneAbsent (arev : List Alert) :
    NoneAbsent (arev, initAlertMap arev) := by
  intro pid h a ha
  exact (initAlertMap_none arev pid).mp h a ha

theorem genStep_preserves (stock : List StockLine) (now : String)
    (s : List Alert × (Rat → Option Nat)) (p : Product) (hnm : NoneAbsent s) :
    NoneAbsent (genStep stock now s p) ∧
    ((genStep stock now s p).1.map (·.productId) = s.1.map (·.productId) ∨
      ((genStep stock now s p).1.map (·.productId) =
        s.1.map (·.productId) ++ [p.id] ∧ p.id ∉ s.1.map (·.productId))) := by
  rcases genStep_shape stock now s p with heq | ⟨k, a, b, hm, hk, hres, heq, hpid⟩ |
    ⟨alert, hm, heq, hpid, hws⟩
  · rw [heq]
    exact ⟨hnm, Or.inl rfl⟩
  · rw [heq]
    have hmem : a ∈ s.1 := by
      rcases List.getElem?_eq_some_iff.mp hk with ⟨hlt, hget⟩
      exact hget ▸ List.getElem_mem hlt
    constructor
    · intro pid h a' ha'
      rcases List.mem_or_eq_of_mem_set ha' with ha' | ha'
      · exact hnm pid h a' ha'
      · rw [ha', hpid]
        exact hnm pid h a hmem
    · left
      rw [List.map_set, hpid]
      apply set_same
      rw [List.getElem?_map, hk]
      rfl
  · rw [heq]
    constructor
    · intro pid h a' ha'
      simp only at h
      by_cases hq : pid = p.id
      · rw [hq] at h
        simp at h
      · rw [if_neg hq] at h
        rcases List.mem_append.mp ha' with ha' | ha'
        · exact hnm pid h a' ha'
        · rw [List.mem_singleton.mp ha', hpid]
          exact fun hc => hq hc.symm
    · right
      constructor
      · simp [hpid]
      · intro hc
        rcases List.mem_map.mp hc with ⟨a', ha', hpa⟩
        exact hnm p.id hm a' ha' hpa

theorem genStep_resolved_pos (stock : List StockLine) (now : String)
    (s : List Alert × (Rat → Option Nat)) (p : Product) (k : Nat) (a : Alert)
    (ha : s.1[k]? = some a) (hres : a.workflowStatus = "RESOLVED") :
    (genStep stock now s p).1[k]? = some a := by
  rcases genStep_shape stock now s p with heq | ⟨k', a', b, hm, hk', hres', heq, hpid⟩ |
    ⟨alert, hm, heq, hpid, hws⟩
  · rw [heq]; exact ha
  · rw [heq]
    have hne : k' ≠ k := by
      intro hkk
      rw [hkk, ha] at hk'
      injection hk' with hk'
      exact hres' (hk' ▸ hres)
    simp only
    rw [List.getElem?_set_ne hne]
    exact ha
  · rw [heq]
    simp only
    rw [List.getElem?_append_left]
    · exact ha
    · exact (List.getElem?_eq_some_iff.mp ha).1

theorem genFold_resolved_pos (stock : List StockLine) (now : String)
    (products : List Product) (s : List Alert × (Rat → Option Nat)) (k : Nat)
    (a : Alert) (ha : s.1[k]? = some a)
    (hres : a.workflowStatus = "RESOLVED") :
    (products.foldl (genStep stock now) s).1[k]? = some a := by
  induction products generalizing s with
  | nil => exact ha
  | cons p ps ih =>
    exact ih _ (genStep_resolved_pos stock now s p k a ha hres)

theorem genFold_pids (stock : List StockLine) (now : String)
    (products : List Product) (s : List Alert × (Rat → Option Nat))
    (hnm : NoneAbsent s) :
    NoneAbsent (products.foldl (genStep stock now) s) ∧
    ∃ ext, (products.foldl (genStep stock now) s).1.map (·.productId) =
      s.1.map (·.productId) ++ ext ∧
      ∀ q ∈ ext, q ∉ s.1.map (·.productId) := by
  induction products generalizing s with
  | nil => exact ⟨hnm, [], by simp, by simp⟩
  | cons p ps ih =>
    obtain ⟨hnm1, hcase⟩ := genStep_preserves stock now s p hnm
    obtain ⟨hnm2, ext1, hmap2, hfresh1⟩ := ih _ hnm1
    refine ⟨hnm2, ?_⟩
    rcases hcase with hmap1 | ⟨hmap1, hfresh⟩
    · exact ⟨ext1, by rw [List.foldl_cons, hmap2, hmap1],
        fun q hq => hmap1 ▸ hfresh1 q hq⟩
    · refine ⟨p.id :: ext1, ?_, ?_⟩
      · rw [List.foldl_cons, hmap2, hmap1]
        simp
      · intro q hq
        rcases List.mem_cons.mp hq with rfl | hq
        · exact hfresh
        · intro hc
          exact hfresh1 q hq (by rw [hmap1]; exact List.mem_append_left _ hc)

/-- C5 counterexample: product 1 is critical (total 40, reorder point 100)
and its only alert is RESOLVED, yet the reconciliation pass returns the
alert collection unchanged — no distinct new NEW alert is created. -/
theorem generateAlerts_resolved_counterexample :
    exResolvedAlert.workflowStatus = "RESOLVED" ∧
    categorizeStock (getTotalStockForProduct exStock 1)
      exProduct.reorderPoint = "critical" ∧
    generateAlerts [exProduct] exStock [exResolvedAlert] "t1" =
      [exResolvedAlert] := by
  refine ⟨rfl, ?_, ?_⟩
  · norm_num [getTotalStockForProduct, categorizeStock, exStock, exProduct]
  · norm_num [generateAlerts, genStep, initAlertMap, exProduct, exStock,
      exResolvedAlert, getTotalStockForProduct, categorizeStock,
      recommendReorder, refreshAlert, newAlert, resolveAlert]

/-- C5 (amended): the reconciliation pass never mutates an Alert whose
workflowStatus is RESOLVED (every such alert survives unchanged), and it
never creates an additional Alert for a product that already has an Alert
record of any status — in particular, for a product whose only Alert is
RESOLVED, a breach creates no new Alert; a new Alert is created only for
products with no Alert record at all. -/
theorem generateAlerts_resolved_preserved (products : List Product)
    (stock : List StockLine) (alerts0 : List Alert) (now : String) :
    (∀ a ∈ alerts0, a.workflowStatus = "RESOLVED" →
      a ∈ generateAlerts products stock alerts0 now) ∧
    ∀ pid, (∃ a ∈ alerts0, a.productId = pid) →
      ((generateAlerts products stock alerts0 now).filter
          (fun x => decide (x.productId = pid))).length =
        (alerts0.filter (fun x => decide (x.productId = pid))).length := by
  constructor
  · intro a ha hres
    have hmem : a ∈ alerts0.reverse := List.mem_reverse.mpr ha
    obtain ⟨k, hk⟩ := List.mem_iff_getElem?.mp hmem
    have hpos := genFold_resolved_pos stock now products
      (alerts0.reverse, initAlertMap alerts0.reverse) k a hk hres
    have : a ∈ (products.foldl (genStep stock now)
        (alerts0.reverse, initAlertMap alerts0.reverse)).1 := by
      rcases List.getElem?_eq_some_iff.mp hpos with ⟨hlt, hget⟩
      exact hget ▸ List.getElem_mem hlt
    exact List.mem_reverse.mpr this
  · rintro pid ⟨a0, ha0, hpid0⟩
    have hin : pid ∈ alerts0.reverse.map (·.productId) :=
      List.mem_map.mpr ⟨a0, List.mem_reverse.mpr ha0, hpid0⟩
    obtain ⟨-, ext, hmap, hfresh⟩ := genFold_pids stock now products
      (alerts0.reverse, initAlertMap alerts0.reverse)
      (initAlertMap_noneAbsent _)
    rw [← List.countP_eq_length_filter, ← List.countP_eq_length_filter]
    have hout : generateAlerts products stock alerts0 now =
        (products.foldl (genStep stock now)
          (alerts0.reverse, initAlertMap alerts0.reverse)).1.reverse := rfl
    rw [hout, List.countP_reverse]
    have hc := congrArg (List.countP (fun r => decide (r = pid))) hmap
    rw [List.countP_append, List.countP_map, List.countP_map] at hc
    simp only [Function.comp] at hc
    have hz : List.countP (fun r => decide (r = pid)) ext = 0 := by
      rw [List.countP_eq_zero]
      intro q hq
      simp only [decide_eq_true_eq]
      intro hqq
      exact hfresh q hq (hqq ▸ hin)
    rw [hz, Nat.add_zero] at hc
    have hc' : List.countP (fun x => decide (x.productId = pid))
        (products.foldl (genStep stock now)
          (alerts0.reverse, initAlertMap alerts0.reverse)).1 =
        List.countP (fun x => decide (x.productId = pid)) alerts0.reverse := hc
    rw [hc', List.countP_reverse]

/-- Witness for the amended C5 theorem: the RESOLVED fixture alert survives
the pass and the alert count for its product is unchanged. -/
theorem generateAlerts_resolved_preserved_witness :
    exResolvedAlert ∈
      generateAlerts [exProduct] exStock [exResolvedAlert] "t1" ∧
    ((generateAlerts [exProduct] exStock [exResolvedAlert] "t1").filter
        (fun x => decide (x.productId = 1))).length =
      ([exResolvedAlert].filter (fun x => decide (x.productId = 1))).length :=
  ⟨(generateAlerts_resolved_preserved [exProduct] exStock [exResolvedAlert]
      "t1").1 exResolvedAlert (by simp) rfl,
   (generateAlerts_resolved_preserved [exProduct] exStock [exResolvedAlert]
      "t1").2 1 ⟨exResolvedAlert, by simp, rfl⟩⟩

theorem genFold_pairwise (stock : List StockLine) (now : String)
    (products : List Product) :
    ∀ s, NoneAbsent s → (s.1.map (·.productId)).Pairwise (· ≠ ·) →
    (((products.foldl (genStep stock now) s).1.map (·.productId)).Pairwise
      (· ≠ ·)) := by
  induction products with
  | nil => intro s _ hp; exact hp
  | cons p ps ih =>
    intro s hnm hp
    obtain ⟨hnm1, hcase⟩ := genStep_preserves stock now s p hnm
    refine ih _ hnm1 ?_
    rcases hcase with hmap | ⟨hmap, hfresh⟩
    · rw [hmap]; exact hp
    · rw [hmap, List.pairwise_append]
      refine ⟨hp, by simp, ?_⟩
      intro a ha b hb
      rcases List.mem_singleton.mp hb with rfl
      intro hc
      exact hfresh (hc ▸ ha)

theorem generateAlerts_pairwise (products : List Product)
    (stock : List StockLine) (alerts0 : List Alert) (now : String)
    (hp : alerts0.Pairwise (fun a b => a.productId ≠ b.productId)) :
    (generateAlerts products stock alerts0 now).Pairwise
      (fun a b => a.productId ≠ b.productId) := by
  have harev : ((alerts0.reverse).map (·.productId)).Pairwise (· ≠ ·) := by
    rw [List.pairwise_map, List.pairwise_reverse]
    exact hp.imp fun h => Ne.symm h
  have hfold := genFold_pairwise stock now products
    (alerts0.reverse, initAlertMap alerts0.reverse)
    (initAlertMap_noneAbsent _) harev
  have hout : generateAlerts products stock alerts0 now =
      (products.foldl (genStep stock now)
        (alerts0.reverse, initAlertMap alerts0.reverse)).1.reverse := rfl
  rw [hout]
  have hmapped : ((products.foldl (genStep stock now)
      (alerts0.reverse, initAlertMap alerts0.reverse)).1.reverse.map
        (·.productId)).Pairwise (· ≠ ·) := by
    rw [List.map_reverse, List.pairwise_reverse]
    exact hfold.imp fun h => Ne.symm h
  rw [List.pairwise_map] at hmapped
  exact hmapped

theorem updateFirstAlert_map_pid (l : List Alert) (p : Alert → Bool)
    (b a : Alert) (hfind : l.find? p = some a)
    (hpid : b.productId = a.productId) :
    (updateFirstAlert l p b).map (·.productId) = l.map (·.productId) := by
  induction l with
  | nil => simp at hfind
  | cons x xs ih =>
    by_cases hp : p x
    · rw [List.find?_cons_of_pos _ hp] at hfind
      injection hfind with hfind
      subst hfind
      simp [updateFirstAlert, hp, hpid]
    · rw [List.find?_cons_of_neg _ hp] at hfind
      simp [updateFirstAlert, hp, ih hfind]

theorem updateAlertStatus_pids (alerts : List Alert) (id ws : String)
    (c : Option String) (now : String) (A' : List Alert) (a : Alert)
    (h : updateAlertStatus alerts id ws c now = .ok (A', a)) :
    A'.map (·.productId) = alerts.map (·.productId) := by
  rcases hfind : alerts.find? (fun x => decide (x.id = id)) with _ | alert <;>
    simp only [updateAlertStatus, hfind] at h
  · exact Except.noConfusion h
  · by_cases hv : (!(validStatuses.contains ws)) = true
    · rw [if_pos hv] at h
      exact Except.noConfusion h
    · rw [if_neg hv] at h
      simp only [Except.ok.injEq, Prod.mk.injEq] at h
      obtain ⟨hA, -⟩ := h
      subst hA
      exact updateFirstAlert_map_pid alerts _ _ alert hfind rfl

/-- C10: starting from the empty alerts collection, every state reachable
through `generateAlerts` and successful `updateAlertStatus` calls has at
most one Alert per productId: `generateAlerts` creates an Alert only for a
product with no Alert of any status, and `updateAlertStatus` never adds or
removes Alert records. -/
theorem alerts_unique_per_product (A : List Alert) (h : AlertsReachable A) :
    A.Pairwise (fun a b => a.productId ≠ b.productId) := by
  induction h with
  | empty => simp
  | reconcile products stock now A hA ih =>
    exact generateAlerts_pairwise products stock A now ih
  | workflow A A' a id ws c now hA hupd ih =>
    have hm := updateAlertStatus_pids A id ws c now A' a hupd
    have hmap : (A.map (·.productId)).Pairwise (· ≠ ·) := by
      rw [List.pairwise_map]
      exact ih
    rw [← hm, List.pairwise_map] at hmap
    exact hmap

/-- Witness for C10: the state reached by one reconciliation pass from the
empty collection has pairwise-distinct product ids. -/
theorem alerts_unique_per_product_witness :
    (generateAlerts [exProduct] exStock [] "t1").Pairwise
      (fun a b => a.productId ≠ b.productId) :=
  alerts_unique_per_product _
    (AlertsReachable.reconcile [exProduct] exStock "t1" []
      AlertsReachable.empty)

/-- C6 counterexample: with product 1 critical, a first pass at time "t1"
creates an alert; a second pass at a later time "t2" with unchanged stock
and workflow rewrites the alert (updatedAt), so the state after the second
call is not byte-identical to the state after the first. -/
theorem generateAlerts_not_idempotent_counterexample :
    generateAlerts [exProduct] exStock
        (generateAlerts [exProduct] exStock [] "t1") "t2" ≠
      generateAlerts [exProduct] exStock [] "t1" := by
  norm_num [generateAlerts, genStep, initAlertMap, exProduct, exStock,
    getTotalStockForProduct, categorizeStock, recommendReorder, Rat.ceil,
    refreshAlert, newAlert, resolveAlert]
  decide

theorem findIdx?_some_elem (l : List Alert) (p : Alert → Bool) :
    ∀ k, l.findIdx? p = some k → ∃ a, l[k]? = some a ∧ p a = true := by
  induction l with
  | nil => intro k h; simp at h
  | cons x xs ih =>
    intro k h
    rw [List.findIdx?_cons] at h
    by_cases hp : p x
    · rw [if_pos hp] at h
      injection h with h
      subst h
      exact ⟨x, by simp, hp⟩
    · rw [if_neg hp, List.findIdx?_succ] at h
      rcases ho : xs.findIdx? p with _ | k' <;> rw [ho] at h <;>
        simp only [Option.map_none', Option.map_some'] at h
      · exact Option.noConfusion h
      · injection h with h
        subst h
        obtain ⟨a, ha, hpa⟩ := ih k' ho
        exact ⟨a, by simpa using ha, hpa⟩

theorem map_pid_set (l : List Alert) (k : Nat) (a b : Alert)
    (hk : l[k]? = some a) (hpid : b.productId = a.productId) :
    (l.set k b).map (·.productId) = l.map (·.productId) := by
  rw [List.map_set, hpid]
  apply set_same
  rw [List.getElem?_map, hk]
  rfl

theorem initAlertMap_congr (l l' : List Alert)
    (h : l.map (·.productId) = l'.map (·.productId)) :
    initAlertMap l = initAlertMap l' := by
  funext pid
  have e1 : l.findIdx? (fun a => decide (a.productId = pid)) =
      (l.map (fun x : Alert => x.productId)).findIdx?
        (fun r => decide (r = pid)) :=
    (@List.findIdx?_map Alert Rat (fun r => decide (r = pid))
      (fun x : Alert => x.productId) l).symm
  have e2 : l'.findIdx? (fun a => decide (a.productId = pid)) =
      (l'.map (fun x : Alert => x.productId)).findIdx?
        (fun r => decide (r = pid)) :=
    (@List.findIdx?_map Alert Rat (fun r => decide (r = pid))
      (fun x : Alert => x.productId) l').symm
  simp only [initAlertMap]
  rw [e1, e2, h]

theorem mapEq_some_elem (s : List Alert × (Rat → Option Nat)) (pid : Rat)
    (k : Nat) (hme : MapEq s) (hm : s.2 pid = some k) :
    ∃ a, s.1[k]? = some a ∧ a.productId = pid := by
  rw [hme] at hm
  obtain ⟨a, ha, hpa⟩ := findIdx?_some_elem s.1 _ k hm
  exact ⟨a, ha, by simpa using hpa⟩

theorem genStep_mapEq (stock : List StockLine) (now : String)
    (s : List Alert × (Rat → Option Nat)) (p : Product) (h : MapEq s) :
    MapEq (genStep stock now s p) := by
  rcases genStep_shape stock now s p with heq | ⟨k, a, b, hm, hk, hres, heq, hpid⟩ |
    ⟨alert, hm, heq, hpid, hws⟩
  · rw [heq]; exact h
  · rw [heq]
    unfold MapEq at h ⊢
    simp only
    rw [h]
    exact (initAlertMap_congr _ _ (map_pid_set s.1 k a b hk hpid)).symm
  · rw [heq]
    unfold MapEq at h ⊢
    simp only
    funext q
    by_cases hq : q = p.id
    · rw [if_pos hq]
      have h1 : s.1.findIdx? (fun a => decide (a.productId = q)) = none := by
        have h1' := hm
        rw [h] at h1'
        rw [hq]
        exact h1'
      simp only [initAlertMap, List.findIdx?_append, h1, Option.none_or]
      have h2 : [alert].findIdx? (fun a => decide (a.productId = q)) = some 0 := by
        rw [List.findIdx?_cons, if_pos (by simp [hpid, hq])]
      rw [h2]
      simp
    · rw [if_neg hq]
      have h2 : [alert].findIdx? (fun a => decide (a.productId = q)) = none := by
        rw [List.findIdx?_cons, if_neg (by simp [hpid]; exact fun hc => hq hc.symm)]
        simp [List.findIdx?]
      simp only [initAlertMap, List.findIdx?_append, h2, Option.map_none',
        Option.or_none]
      rw [h]
      rfl


theorem stable_fold (stock : List StockLine) (now : String)
    (ps : List Product) (s : List Alert × (Rat → Option Nat))
    (hstab : ∀ p ∈ ps, Stable stock now s p) :
    ps.foldl (genStep stock now) s = s := by
  induction ps with
  | nil => rfl
  | cons p ps ih =>
    rw [List.foldl_cons, hstab p (List.mem_cons_self p ps)]
    exact ih fun q hq => hstab q (List.mem_cons_of_mem p hq)

theorem refresh_refresh (stock : List StockLine) (now : String) (p : Product)
    (a : Alert) : refreshAlert stock now p (refreshAlert stock now p a) =
      refreshAlert stock now p a := rfl

theorem refresh_newAlert (stock : List StockLine) (now : String)
    (p : Product) : refreshAlert stock now p (newAlert stock now p) =
      newAlert stock now p := rfl

theorem refresh_ws (stock : List StockLine) (now : String) (p : Product)
    (a : Alert) : (refreshAlert stock now p a).workflowStatus =
      a.workflowStatus := rfl

theorem newAlert_ws (stock : List StockLine) (now : String) (p : Product) :
    (newAlert stock now p).workflowStatus = "NEW" := rfl

theorem resolve_ws (now : String) (a : Alert) :
    (resolveAlert now a).workflowStatus = "RESOLVED" := rfl

theorem genStep_establishes_stable (stock : List StockLine) (now : String)
    (s : List Alert × (Rat → Option Nat)) (p : Product) :
    Stable stock now (genStep stock now s p) p := by
  obtain ⟨l, m⟩ := s
  unfold Stable
  by_cases hc : categorizeStock (getTotalStockForProduct stock p.id)
      p.reorderPoint = "critical" ∨
      categorizeStock (getTotalStockForProduct stock p.id) p.reorderPoint = "low"
  · rcases hm : m p.id with _ | k
    · have h1 : genStep stock now (l, m) p =
          (l ++ [newAlert stock now p],
            fun q => if q = p.id then some l.length else m q) := by
        simp only [genStep, hm]
        rw [if_pos hc]
      rw [h1]
      simp only [genStep]
      rw [if_pos hc]
      rw [if_pos trivial]
      have hget : (l ++ [newAlert stock now p])[l.length]? =
          some (newAlert stock now p) := List.getElem?_concat_length l _
      simp only [hget, newAlert_ws, ne_eq, refresh_newAlert]
      rw [if_pos (by decide)]
      rw [set_same _ _ _ hget]
    · rcases hk : l[k]? with _ | a
      · have h1 : genStep stock now (l, m) p = (l, m) := by
          simp only [genStep, hm, hk]
          rw [if_pos hc]
        rw [h1, h1]
      · by_cases hres : a.workflowStatus = "RESOLVED"
        · have h1 : genStep stock now (l, m) p = (l, m) := by
            simp only [genStep, hm, hk]
            rw [if_pos hc, if_neg (by simp [hres])]
          rw [h1, h1]
        · have h1 : genStep stock now (l, m) p =
              (l.set k (refreshAlert stock now p a), m) := by
            simp only [genStep, hm, hk]
            rw [if_pos hc, if_pos hres]
          rw [h1]
          simp only [genStep, hm]
          rw [if_pos hc]
          have hk' : (l.set k (refreshAlert stock now p a))[k]? =
              some (refreshAlert stock now p a) := by
            rw [List.getElem?_set_self', hk]
            rfl
          simp only [hk', refresh_ws, ne_eq]
          rw [if_pos hres, refresh_refresh, List.set_set]
  · rcases hm : m p.id with _ | k
    · have h1 : genStep stock now (l, m) p = (l, m) := by
        simp only [genStep, hm]
        rw [if_neg hc]
      rw [h1, h1]
    · rcases hk : l[k]? with _ | a
      · have h1 : genStep stock now (l, m) p = (l, m) := by
          simp only [genStep, hm, hk]
          rw [if_neg hc]
        rw [h1, h1]
      · by_cases hres : a.workflowStatus = "RESOLVED"
        · have h1 : genStep stock now (l, m) p = (l, m) := by
            simp only [genStep, hm, hk]
            rw [if_neg hc, if_neg (by simp [hres])]
          rw [h1, h1]
        · have h1 : genStep stock now (l, m) p =
              (l.set k (resolveAlert now a), m) := by
            simp only [genStep, hm, hk]
            rw [if_neg hc, if_pos hres]
          rw [h1]
          simp only [genStep, hm]
          rw [if_neg hc]
          have hk' : (l.set k (resolveAlert now a))[k]? =
              some (resolveAlert now a) := by
            rw [List.getElem?_set_self', hk]
            rfl
          simp only [hk', resolve_ws, ne_eq]
          rw [if_neg (by simp)]


theorem genStep_eval_some (stock : List StockLine) (now : String)
    (l : List Alert) (m : Rat → Option Nat) (p : Product) (kp : Nat)
    (ap : Alert) (hm : m p.id = some kp) (hap : l[kp]? = some ap) :
    genStep stock now (l, m) p =
      if categorizeStock (getTotalStockForProduct stock p.id)
            p.reorderPoint = "critical" ∨
          categorizeStock (getTotalStockForProduct stock p.id)
            p.reorderPoint = "low" then
        (if ap.workflowStatus ≠ "RESOLVED" then
          (l.set kp (refreshAlert stock now p ap), m) else (l, m))
      else
        (if ap.workflowStatus ≠ "RESOLVED" then
          (l.set kp (resolveAlert now ap), m) else (l, m)) := by
  by_cases hc : categorizeStock (getTotalStockForProduct stock p.id)
      p.reorderPoint = "critical" ∨
      categorizeStock (getTotalStockForProduct stock p.id) p.reorderPoint = "low"
  · rw [if_pos hc]
    simp only [genStep, hm, hap]
    rw [if_pos hc]
  · rw [if_neg hc]
    simp only [genStep, hm, hap]
    rw [if_neg hc]

theorem genStep_eval_none (stock : List StockLine) (now : String)
    (l : List Alert) (m : Rat → Option Nat) (p : Product)
    (hm : m p.id = none) :
    genStep stock now (l, m) p =
      if categorizeStock (getTotalStockForProduct stock p.id)
            p.reorderPoint = "critical" ∨
          categorizeStock (getTotalStockForProduct stock p.id)
            p.reorderPoint = "low" then
        (l ++ [newAlert stock now p],
          fun q => if q = p.id then some l.length else m q)
      else (l, m) := by
  by_cases hc : categorizeStock (getTotalStockForProduct stock p.id)
      p.reorderPoint = "critical" ∨
      categorizeStock (getTotalStockForProduct stock p.id) p.reorderPoint = "low"
  · rw [if_pos hc]
    simp only [genStep, hm]
    rw [if_pos hc]
  · rw [if_neg hc]
    simp only [genStep, hm]
    rw [if_neg hc]

theorem genStep_preserves_stable (stock : List StockLine) (now : String)
    (s : List Alert × (Rat → Option Nat)) (p q : Product)
    (hne : q.id ≠ p.id) (hmeq : MapEq s) (hst : Stable stock now s p) :
    Stable stock now (genStep stock now s q) p := by
  obtain ⟨l, m⟩ := s
  unfold Stable at hst ⊢
  rcases genStep_shape stock now (l, m) q with heq |
    ⟨k', a', b, hm', hk', hres', heq, hpid⟩ | ⟨alert, hm', heq, hpid', hws'⟩
  · rw [heq]; exact hst
  · rw [heq]
    simp only at hm' hk' heq ⊢
    obtain ⟨a'', ha'', hpid''⟩ := mapEq_some_elem (l, m) q.id k' hmeq hm'
    have hqpid : a'.productId = q.id := by
      rw [hk'] at ha''
      injection ha'' with hx
      rw [hx]
      exact hpid''
    rcases hmp : m p.id with _ | kp
    · by_cases hc : categorizeStock (getTotalStockForProduct stock p.id)
          p.reorderPoint = "critical" ∨
          categorizeStock (getTotalStockForProduct stock p.id)
            p.reorderPoint = "low"
      · exfalso
        have h1 := genStep_eval_none stock now l m p hmp
        rw [if_pos hc] at h1
        rw [h1] at hst
        have hlen := congrArg (fun st => st.1.length) hst
        simp at hlen
      · rw [genStep_eval_none stock now _ m p hmp, if_neg hc]
    · obtain ⟨ap, hap, hppid⟩ := mapEq_some_elem (l, m) p.id kp hmeq hmp
      simp only at hap
      have hkk : kp ≠ k' := by
        intro hkk
        subst hkk
        rw [hap] at hk'
        injection hk' with hx
        rw [← hx] at hqpid
        exact hne (hqpid ▸ hppid ▸ rfl)
      have hap' : (l.set k' b)[kp]? = some ap := by
        rw [List.getElem?_set_ne (Ne.symm hkk)]
        exact hap
      by_cases hres : ap.workflowStatus = "RESOLVED"
      · rw [genStep_eval_some stock now _ m p kp ap hmp hap']
        by_cases hc : categorizeStock (getTotalStockForProduct stock p.id)
            p.reorderPoint = "critical" ∨
            categorizeStock (getTotalStockForProduct stock p.id)
              p.reorderPoint = "low"
        · rw [if_pos hc, if_neg (by simp [hres])]
        · rw [if_neg hc, if_neg (by simp [hres])]
      · by_cases hc : categorizeStock (getTotalStockForProduct stock p.id)
            p.reorderPoint = "critical" ∨
            categorizeStock (getTotalStockForProduct stock p.id)
              p.reorderPoint = "low"
        · have h1 := genStep_eval_some stock now l m p kp ap hmp hap
          rw [if_pos hc, if_pos hres] at h1
          rw [h1] at hst
          have hset : l.set kp (refreshAlert stock now p ap) = l :=
            congrArg Prod.fst hst
          have h2 := genStep_eval_some stock now (l.set k' b) m p kp ap
            hmp hap'
          rw [if_pos hc, if_pos hres] at h2
          rw [h2, List.set_comm _ _ _ (Ne.symm hkk), hset]
        · have h1 := genStep_eval_some stock now l m p kp ap hmp hap
          rw [if_neg hc, if_pos hres] at h1
          rw [h1] at hst
          have hset : l.set kp (resolveAlert now ap) = l :=
            congrArg Prod.fst hst
          have h2 := genStep_eval_some stock now (l.set k' b) m p kp ap
            hmp hap'
          rw [if_neg hc, if_pos hres] at h2
          rw [h2, List.set_comm _ _ _ (Ne.symm hkk), hset]
  · rw [heq]
    simp only at hm' heq ⊢
    have hpq : ¬ p.id = q.id := fun hx => hne hx.symm
    rcases hmp : m p.id with _ | kp
    · have hmp2 : (fun x => if x = q.id then some l.length else m x) p.id =
          none := by
        simp only [if_neg hpq]
        exact hmp
      by_cases hc : categorizeStock (getTotalStockForProduct stock p.id)
          p.reorderPoint = "critical" ∨
          categorizeStock (getTotalStockForProduct stock p.id)
            p.reorderPoint = "low"
      · exfalso
        have h1 := genStep_eval_none stock now l m p hmp
        rw [if_pos hc] at h1
        rw [h1] at hst
        have hlen := congrArg (fun st => st.1.length) hst
        simp at hlen
      · rw [genStep_eval_none stock now _ _ p hmp2, if_neg hc]
    · obtain ⟨ap, hap, hppid⟩ := mapEq_some_elem (l, m) p.id kp hmeq hmp
      simp only at hap
      have hmp2 : (fun x => if x = q.id then some l.length else m x) p.id =
          some kp := by
        simp only [if_neg hpq]
        exact hmp
      have hap' : (l ++ [alert])[kp]? = some ap := by
        rw [List.getElem?_append_left (List.getElem?_eq_some_iff.mp hap).1]
        exact hap
      by_cases hres : ap.workflowStatus = "RESOLVED"
      · rw [genStep_eval_some stock now _ _ p kp ap hmp2 hap']
        by_cases hc : categorizeStock (getTotalStockForProduct stock p.id)
            p.reorderPoint = "critical" ∨
            categorizeStock (getTotalStockForProduct stock p.id)
              p.reorderPoint = "low"
        · rw [if_pos hc, if_neg (by simp [hres])]
        · rw [if_neg hc, if_neg (by simp [hres])]
      · by_cases hc : categorizeStock (getTotalStockForProduct stock p.id)
            p.reorderPoint = "critical" ∨
            categorizeStock (getTotalStockForProduct stock p.id)
              p.reorderPoint = "low"
        · have h1 := genStep_eval_some stock now l m p kp ap hmp hap
          rw [if_pos hc, if_pos hres] at h1
          rw [h1] at hst
          have hset : l.set kp (refreshAlert stock now p ap) = l :=
            congrArg Prod.fst hst
          have h2 := genStep_eval_some stock now (l ++ [alert])
            (fun x => if x = q.id then some l.length else m x) p kp ap
            hmp2 hap'
          rw [if_pos hc, if_pos hres] at h2
          rw [h2, List.set_append_left _ _
            (List.getElem?_eq_some_iff.mp hap).1, hset]
        · have h1 := genStep_eval_some stock now l m p kp ap hmp hap
          rw [if_neg hc, if_pos hres] at h1
          rw [h1] at hst
          have hset : l.set kp (resolveAlert now ap) = l :=
            congrArg Prod.fst hst
          have h2 := genStep_eval_some stock now (l ++ [alert])
            (fun x => if x = q.id then some l.length else m x) p kp ap
            hmp2 hap'
          rw [if_neg hc, if_pos hres] at h2
          rw [h2, List.set_append_left _ _
            (List.getElem?_eq_some_iff.mp hap).1, hset]


theorem genFold_mapEq (stock : List StockLine) (now : String)
    (ps : List Product) :
    ∀ s, MapEq s → MapEq (ps.foldl (genStep stock now) s) := by
  induction ps with
  | nil => intro s h; exact h
  | cons p ps ih =>
    intro s h
    exact ih _ (genStep_mapEq stock now s p h)

theorem fold_preserves_stable (stock : List StockLine) (now : String)
    (p : Product) :
    ∀ (ps : List Product) (s : List Alert × (Rat → Option Nat)),
      (∀ q ∈ ps, q.id ≠ p.id) → MapEq s → Stable stock now s p →
      Stable stock now (ps.foldl (genStep stock now) s) p := by
  intro ps
  induction ps with
  | nil => intro s _ _ hst; exact hst
  | cons q ps ih =>
    intro s hne hmeq hst
    rw [List.foldl_cons]
    exact ih _ (fun r hr => hne r (List.mem_cons_of_mem q hr))
      (genStep_mapEq stock now s q hmeq)
      (genStep_preserves_stable stock now s p q
        (hne q (List.mem_cons_self q ps)) hmeq hst)

theorem genFold_stable_all (stock : List StockLine) (now : String)
    (ps : List Product) (hd : ps.Pairwise (fun a b => a.id ≠ b.id)) :
    ∀ s, MapEq s →
    ∀ p ∈ ps, Stable stock now (ps.foldl (genStep stock now) s) p := by
  induction ps with
  | nil => intro s _ p hp; simp at hp
  | cons q ps ih =>
    intro s hmeq p hp
    rw [List.foldl_cons]
    rcases List.mem_cons.mp hp with rfl | hp
    · exact fold_preserves_stable stock now p ps _
        (fun r hr => Ne.symm ((List.pairwise_cons.mp hd).1 r hr))
        (genStep_mapEq stock now s p hmeq)
        (genStep_establishes_stable stock now s p)
    · exact ih (List.pairwise_cons.mp hd).2 _
        (genStep_mapEq stock now s q hmeq) p hp

/-- C6 (amended): for a catalog with pairwise-distinct product ids, invoking
the reconciliation pass twice with no intervening Ledger or workflow change
AND an unchanged clock value yields byte-identical Alert state: the second
call creates no new Alert objects and changes no field of any alert.  (With
an advanced clock the second call is not byte-identical: it rewrites
updatedAt — with values otherwise equal — on every unresolved alert of a
still-breached product, as the counterexample shows.) -/
theorem generateAlerts_idempotent (products : List Product)
    (stock : List StockLine) (alerts0 : List Alert) (now : String)
    (hid : products.Pairwise (fun a b => a.id ≠ b.id)) :
    generateAlerts products stock (generateAlerts products stock alerts0 now)
      now = generateAlerts products stock alerts0 now := by
  have hF := genFold_mapEq stock now products
    (alerts0.reverse, initAlertMap alerts0.reverse) rfl
  have hstab := genFold_stable_all stock now products hid
    (alerts0.reverse, initAlertMap alerts0.reverse) rfl
  have hout : generateAlerts products stock alerts0 now =
      (products.foldl (genStep stock now)
        (alerts0.reverse, initAlertMap alerts0.reverse)).1.reverse := rfl
  have hrev : (generateAlerts products stock alerts0 now).reverse =
      (products.foldl (genStep stock now)
        (alerts0.reverse, initAlertMap alerts0.reverse)).1 := by
    rw [hout, List.reverse_reverse]
  have hstart : ((generateAlerts products stock alerts0 now).reverse,
      initAlertMap (generateAlerts products stock alerts0 now).reverse) =
      products.foldl (genStep stock now)
        (alerts0.reverse, initAlertMap alerts0.reverse) := by
    rw [hrev, ← hF]
  have hsecond : generateAlerts products stock
      (generateAlerts products stock alerts0 now) now =
      (products.foldl (genStep stock now)
        ((generateAlerts products stock alerts0 now).reverse,
          initAlertMap (generateAlerts products stock alerts0 now).reverse)
        ).1.reverse := rfl
  rw [hsecond, hstart,
    stable_fold stock now products _ hstab, ← hout]

/-- Witness for the amended C6 theorem: two passes at the same clock value
over the §8 scenario state are byte-identical. -/
theorem generateAlerts_idempotent_witness :
    generateAlerts [exProduct] exStock
        (generateAlerts [exProduct] exStock [] "t1") "t1" =
      generateAlerts [exProduct] exStock [] "t1" :=
  generateAlerts_idempotent [exProduct] exStock [] "t1" (by simp)

end Inventory
